import Mathlib

/-!
Verification model of the book-ingestion pipeline of this repository
(source file: src/import_books_enhanced.py, class BookImporter).

The Python code is shallowly embedded as executable Lean definitions:
bytes and 32-bit machine words are `Nat` values reduced modulo 2 ^ 32 where
overflow matters, external HTTP calls are explicit oracles (a per-attempt
embedding outcome oracle and a per-call upsert success oracle), and the
mutable `self.stats` dictionary is threaded as an explicit `Stats` value.
Embedding vectors are an opaque type parameter `V` since the pipeline never
inspects their contents.
-/

set_option maxRecDepth 100000

namespace BookImport

/-! ## Identity derivation: `book_id_to_uuid` (source lines 39-44)

The Python code takes `hashlib.md5(book_id.encode()).hexdigest()` and
reformats the 32 hex characters into the 8-4-4-4-12 hyphenated shape.
MD5 (RFC 1321) is embedded below over `Nat` bytes/words, together with the
UTF-8 encoding performed by `str.encode()`. -/

def mask32 : Nat := 0xFFFFFFFF

def rotl32 (x c : Nat) : Nat :=
  ((x <<< c) ||| (x >>> (32 - c))) &&& mask32

def utf8EncodeChar (c : Char) : List Nat :=
  let n := c.toNat
  if n < 0x80 then [n]
  else if n < 0x800 then
    [0xC0 ||| (n >>> 6), 0x80 ||| (n &&& 0x3F)]
  else if n < 0x10000 then
    [0xE0 ||| (n >>> 12), 0x80 ||| ((n >>> 6) &&& 0x3F), 0x80 ||| (n &&& 0x3F)]
  else
    [0xF0 ||| (n >>> 18), 0x80 ||| ((n >>> 12) &&& 0x3F),
     0x80 ||| ((n >>> 6) &&& 0x3F), 0x80 ||| (n &&& 0x3F)]

def utf8Encode (s : String) : List Nat :=
  s.toList.flatMap utf8EncodeChar

def md5K : List Nat :=
  [0xd76aa478, 0xe8c7b756, 0x242070db, 0xc1bdceee,
   0xf57c0faf, 0x4787c62a, 0xa8304613, 0xfd469501,
   0x698098d8, 0x8b44f7af, 0xffff5bb1, 0x895cd7be,
   0x6b901122, 0xfd987193, 0xa679438e, 0x49b40821,
   0xf61e2562, 0xc040b340, 0x265e5a51, 0xe9b6c7aa,
   0xd62f105d, 0x02441453, 0xd8a1e681, 0xe7d3fbc8,
   0x21e1cde6, 0xc33707d6, 0xf4d50d87, 0x455a14ed,
   0xa9e3e905, 0xfcefa3f8, 0x676f02d9, 0x8d2a4c8a,
   0xfffa3942, 0x8771f681, 0x6d9d6122, 0xfde5380c,
   0xa4beea44, 0x4bdecfa9, 0xf6bb4b60, 0xbebfbc70,
   0x289b7ec6, 0xeaa127fa, 0xd4ef3085, 0x04881d05,
   0xd9d4d039, 0xe6db99e5, 0x1fa27cf8, 0xc4ac5665,
   0xf4292244, 0x432aff97, 0xab9423a7, 0xfc93a039,
   0x655b59c3, 0x8f0ccc92, 0xffeff47d, 0x85845dd1,
   0x6fa87e4f, 0xfe2ce6e0, 0xa3014314, 0x4e0811a1,
   0xf7537e82, 0xbd3af235, 0x2ad7d2bb, 0xeb86d391]

def md5S : List Nat :=
  [7, 12, 17, 22, 7, 12, 17, 22, 7, 12, 17, 22, 7, 12, 17, 22,
   5, 9, 14, 20, 5, 9, 14, 20, 5, 9, 14, 20, 5, 9, 14, 20,
   4, 11, 16, 23, 4, 11, 16, 23, 4, 11, 16, 23, 4, 11, 16, 23,
   6, 10, 15, 21, 6, 10, 15, 21, 6, 10, 15, 21, 6, 10, 15, 21]

structure MD5State where
  a : Nat
  b : Nat
  c : Nat
  d : Nat
deriving DecidableEq

def md5Init : MD5State :=
  ⟨0x67452301, 0xefcdab89, 0x98badcfe, 0x10325476⟩

def md5Round (m : List Nat) (st : MD5State) (i : Nat) : MD5State :=
  let fg : Nat × Nat :=
    if i < 16 then
      ((st.b &&& st.c) ||| ((st.b ^^^ mask32) &&& st.d), i)
    else if i < 32 then
      ((st.d &&& st.b) ||| ((st.d ^^^ mask32) &&& st.c), (5 * i + 1) % 16)
    else if i < 48 then
      (st.b ^^^ st.c ^^^ st.d, (3 * i + 5) % 16)
    else
      (st.c ^^^ (st.b ||| (st.d ^^^ mask32)), (7 * i) % 16)
  let f := (fg.1 + st.a + md5K.getD i 0 + m.getD fg.2 0) % 2 ^ 32
  ⟨st.d, (st.b + rotl32 f (md5S.getD i 0)) % 2 ^ 32, st.b, st.c⟩

def md5Compress (st : MD5State) (m : List Nat) : MD5State :=
  let r := (List.range 64).foldl (md5Round m) st
  ⟨(st.a + r.a) % 2 ^ 32, (st.b + r.b) % 2 ^ 32,
   (st.c + r.c) % 2 ^ 32, (st.d + r.d) % 2 ^ 32⟩

def toWordsLE : List Nat → List Nat
  | b0 :: b1 :: b2 :: b3 :: rest =>
      (b0 + b1 * 256 + b2 * 65536 + b3 * 16777216) :: toWordsLE rest
  | _ => []

def lenBytesLE (n : Nat) : List Nat :=
  [n &&& 0xFF, (n >>> 8) &&& 0xFF, (n >>> 16) &&& 0xFF, (n >>> 24) &&& 0xFF,
   (n >>> 32) &&& 0xFF, (n >>> 40) &&& 0xFF, (n >>> 48) &&& 0xFF, (n >>> 56) &&& 0xFF]

def md5Pad (msg : List Nat) : List Nat :=
  let len := msg.length
  let zeros := (119 - len % 64) % 64
  msg ++ 0x80 :: List.replicate zeros 0 ++ lenBytesLE ((8 * len) % 2 ^ 64)

def md5Blocks (st : MD5State) : List Nat → MD5State
  | w0 :: w1 :: w2 :: w3 :: w4 :: w5 :: w6 :: w7 ::
    w8 :: w9 :: w10 :: w11 :: w12 :: w13 :: w14 :: w15 :: rest =>
      md5Blocks (md5Compress st
        [w0, w1, w2, w3, w4, w5, w6, w7, w8, w9, w10, w11, w12, w13, w14, w15]) rest
  | _ => st

def wordBytesLE (x : Nat) : List Nat :=
  [x &&& 0xFF, (x >>> 8) &&& 0xFF, (x >>> 16) &&& 0xFF, (x >>> 24) &&& 0xFF]

def md5Digest (msg : List Nat) : List Nat :=
  let st := md5Blocks md5Init (toWordsLE (md5Pad msg))
  wordBytesLE st.a ++ wordBytesLE st.b ++ wordBytesLE st.c ++ wordBytesLE st.d

def hexDigit (n : Nat) : Char :=
  if n < 10 then Char.ofNat (48 + n) else Char.ofNat (87 + n)

def byteHex (b : Nat) : List Char :=
  [hexDigit (b / 16), hexDigit (b % 16)]

def hexdigest (msg : List Nat) : List Char :=
  (md5Digest msg).flatMap byteHex

def book_id_to_uuid (book_id : String) : String :=
  let h := hexdigest (utf8Encode book_id)
  String.mk (h.take 8 ++ '-' :: (h.drop 8).take 4 ++ '-' :: (h.drop 12).take 4 ++
    '-' :: (h.drop 16).take 4 ++ '-' :: (h.drop 20).take 12)

/-! ## Data model

`Stats` mirrors the `self.stats` dictionary (source lines 30-37).
`Book` mirrors a raw JSON record: every field that `process_book` reads
through `book.get(...)` may be absent, hence `Option`. -/

structure Stats where
  total_books : Nat
  processed_books : Nat
  successful_uploads : Nat
  failed_uploads : Nat
  embedding_calls : Nat
  start_time : Option Nat
deriving DecidableEq

def initStats : Stats := ⟨0, 0, 0, 0, 0, none⟩

structure Book where
  book_id : Option String
  title : Option String
  author : Option String
  description : Option String
  tags : Option (List String)
  language : Option String
  cover_url : Option String
deriving DecidableEq

structure FullPayload where
  book_id : String
  title : String
  author : String
  description : String
  tags : List String
  language : String
  cover_url : String
  type : String
deriving DecidableEq

structure DescPayload where
  book_id : String
  type : String
deriving DecidableEq

structure TagsPoint (V : Type) where
  id : String
  vector : V
  payload : FullPayload
deriving DecidableEq

structure DescPoint (V : Type) where
  id : String
  vector : V
  payload : DescPayload
deriving DecidableEq

/-! ## Embedding client: `get_embedding` (source lines 183-210)

Each HTTP attempt against the embedding endpoint is an oracle value
`net attempt : Option V` (`some v` for a 200 response carrying vector `v`,
`none` for a non-success status or transport exception).  The loop makes up
to `MAX_RETRIES` attempts, sleeping one second after every failed attempt
except the last (`if attempt < MAX_RETRIES - 1: time.sleep(1)`), and
returns `none` once all attempts are exhausted.  `embedLoop` returns the
result together with the number of attempts made and the number of
one-second sleeps performed. -/

def MAX_RETRIES : Nat := 3

variable {V : Type} {α : Type}

def embedLoop (net : Nat → Option V) (maxR : Nat) : Nat → Nat → Option V × Nat × Nat
  | _, 0 => (none, 0, 0)
  | attempt, n + 1 =>
    match net attempt with
    | some v => (some v, 1, 0)
    | none =>
      let sl := if attempt < maxR - 1 then 1 else 0
      let r := embedLoop net maxR (attempt + 1) n
      (r.1, r.2.1 + 1, r.2.2 + sl)

def embedResult (net : Nat → Option V) : Option V :=
  (embedLoop net MAX_RETRIES 0 MAX_RETRIES).1

def get_embedding (net : Nat → Option V) (stats : Stats) : Option V × Stats :=
  (embedResult net,
   { stats with embedding_calls := stats.embedding_calls + 1 })

/-! ## Record processing: `process_book` (source lines 235-297) and
`process_batch` (source lines 299-315)

The oracle `net : String → Nat → Option V` gives, for each prompt text and
each HTTP attempt index, the outcome of that attempt. -/

def build_tags_text (tags : List String) (title : String) : String :=
  if tags ≠ [] then "分類：" ++ String.intercalate ", " tags
  else "書名：" ++ title

def processBook (net : String → Nat → Option V) (stats : Stats)
    (book : Book) (book_index : Nat) :
    (Option (TagsPoint V) × Option (DescPoint V)) × Stats :=
  let book_id := book.book_id.getD ("bk_" ++ toString book_index)
  let title := book.title.getD ""
  let author := book.author.getD ""
  let description := book.description.getD ""
  let tags := book.tags.getD []
  let language := book.language.getD "中文"
  let cover_url := book.cover_url.getD ""
  let tags_text := build_tags_text tags title
  let e1 := get_embedding (net tags_text) stats
  match e1.1 with
  | none => ((none, none), e1.2)
  | some tags_vector =>
    let e2 := get_embedding (net description) e1.2
    match e2.1 with
    | none => ((none, none), e2.2)
    | some desc_vector =>
      let point_uuid := book_id_to_uuid book_id
      ((some ⟨point_uuid, tags_vector,
          ⟨book_id, title, author, description, tags, language, cover_url, "book"⟩⟩,
        some ⟨point_uuid, desc_vector, ⟨book_id, "book_desc"⟩⟩), e2.2)

def processBatch (net : String → Nat → Option V) (books : List Book)
    (start_idx : Nat) (stats : Stats) :
    List (TagsPoint V) × List (DescPoint V) × Nat × Stats :=
  match books with
  | [] => ([], [], 0, stats)
  | book :: rest =>
    match processBook net stats book start_idx with
    | ((some tags_point, some desc_point), stats1) =>
      let r := processBatch net rest (start_idx + 1) stats1
      (tags_point :: r.1, desc_point :: r.2.1, r.2.2.1 + 1, r.2.2.2)
    | ((_, _), stats1) =>
      processBatch net rest (start_idx + 1)
        { stats1 with failed_uploads := stats1.failed_uploads + 1 }

/-- Observation helper: the points a record yields, independent of the
threaded stats value (the point outputs of `processBook` do not read the
stats, proved below). -/
def bookPoints (net : String → Nat → Option V) (book : Book) (i : Nat) :
    Option (TagsPoint V × DescPoint V) :=
  match (processBook net initStats book i).1 with
  | (some tp, some dp) => some (tp, dp)
  | _ => none

/-! ## Vector-store collections

A Qdrant collection is modelled as the list of points it holds; an upsert
writes or overwrites by point identifier (a point whose identifier is
already present replaces the old point in place, otherwise it is appended).
`upsert_to_qdrant` (source lines 212-233) is an all-or-nothing batch write
whose HTTP outcome is an oracle `upOk` indexed by the number of upsert
calls issued so far; a failed call leaves the collection unchanged. -/

def upsertPoint (key : α → String) (c : List α) (p : α) : List α :=
  if key p ∈ c.map key then
    c.map (fun q => if key q = key p then p else q)
  else c ++ [p]

def upsertList (key : α → String) (c : List α) (ps : List α) : List α :=
  ps.foldl (upsertPoint key) c

def upsert_to_qdrant (key : α → String) (upOk : Nat → Bool) (calls : Nat)
    (c : List α) (points : List α) : Bool × List α × Nat :=
  if points.isEmpty then (true, c, calls)
  else if upOk calls then (true, upsertList key c points, calls + 1)
  else (false, c, calls + 1)

/-! ## `clear_collection` (source lines 122-160)

The Python code issues one scroll request with `limit: 10000`, collects the
identifiers of the returned points, and bulk-deletes exactly those.  The
scroll therefore returns at most the first 10000 points of the collection.
`scrollOk` and `deleteOk` are the HTTP outcomes of the two requests; the
returned `Nat` is the number of delete requests issued. -/

def clear_collection (key : α → String) (scrollOk deleteOk : Bool)
    (c : List α) : Bool × List α × Nat :=
  if scrollOk = false then (false, c, 0)
  else
    let point_ids := (c.take 10000).map key
    if point_ids = [] then (true, c, 0)
    else if deleteOk then
      (true, c.filter (fun p => decide (key p ∉ point_ids)), 1)
    else (false, c, 1)

/-! ## The batch stage of `import_books` (source lines 353-394)

`stepBatch` is one iteration of `for i in range(0, len(books), batch_size)`:
process the batch, skip the upload when it produced no points, upsert into
`tags_vecs` then into `desc_vecs` (each `continue`-ing on failure without
touching the remaining stats), and on full success update
`processed_books` and `successful_uploads`.  `loopBatches` drives the
iteration with explicit fuel (the recursion consumes at least one record
per round once `batch_size > 0`); `runBatches` supplies fuel
`books.length`, which suffices. -/

structure RunState (V : Type) where
  stats : Stats
  tagsColl : List (TagsPoint V)
  descColl : List (DescPoint V)
  upsertCalls : Nat
deriving DecidableEq

def stepBatch (net : String → Nat → Option V) (upOk : Nat → Bool)
    (batch : List Book) (start_idx : Nat) (s : RunState V) : RunState V :=
  let r := processBatch net batch start_idx s.stats
  let tags_points := r.1
  let desc_points := r.2.1
  let successful_count := r.2.2.1
  let stats1 := r.2.2.2
  if tags_points.isEmpty || desc_points.isEmpty then { s with stats := stats1 }
  else
    let u1 := upsert_to_qdrant (fun p => p.id) upOk s.upsertCalls s.tagsColl tags_points
    if u1.1 = false then { s with stats := stats1, upsertCalls := u1.2.2 }
    else
      let u2 := upsert_to_qdrant (fun p => p.id) upOk u1.2.2 s.descColl desc_points
      if u2.1 = false then
        { s with stats := stats1, tagsColl := u1.2.1, upsertCalls := u2.2.2 }
      else
        { stats := { stats1 with
            processed_books := stats1.processed_books + batch.length,
            successful_uploads := stats1.successful_uploads + successful_count },
          tagsColl := u1.2.1, descColl := u2.2.1, upsertCalls := u2.2.2 }

def loopBatches (net : String → Nat → Option V) (upOk : Nat → Bool)
    (batch_size : Nat) : Nat → List Book → Nat → RunState V → RunState V
  | 0, _, _, s => s
  | _, [], _, s => s
  | fuel + 1, books, i, s =>
    let batch := books.take batch_size
    loopBatches net upOk batch_size fuel (books.drop batch_size)
      (i + batch.length) (stepBatch net upOk batch i s)

def runBatches (net : String → Nat → Option V) (upOk : Nat → Bool)
    (batch_size : Nat) (books : List Book) (s : RunState V) : RunState V :=
  loopBatches net upOk batch_size books.length books 0 s

/-! ## Identifier bookkeeping helpers used by the theorems -/

def insertId (a : List String) (x : String) : List String :=
  if x ∈ a then a else a ++ [x]

def idsUnion (a b : List String) : List String :=
  b.foldl insertId a

/-- The tag-point identifiers the batch loop writes, batch by batch, as a
function of the inputs alone (assuming every upsert succeeds). -/
def writtenTagIds (net : String → Nat → Option V) (batch_size : Nat) :
    Nat → List Book → Nat → List String
  | 0, _, _ => []
  | _, [], _ => []
  | fuel + 1, books, i =>
    let r := processBatch net (books.take batch_size) i initStats
    (if r.1.isEmpty || r.2.1.isEmpty then [] else r.1.map (fun p => p.id)) ++
      writtenTagIds net batch_size fuel (books.drop batch_size)
        (i + (books.take batch_size).length)

/-- Description-point analogue of `writtenTagIds`. -/
def writtenDescIds (net : String → Nat → Option V) (batch_size : Nat) :
    Nat → List Book → Nat → List String
  | 0, _, _ => []
  | _, [], _ => []
  | fuel + 1, books, i =>
    let r := processBatch net (books.take batch_size) i initStats
    (if r.1.isEmpty || r.2.1.isEmpty then [] else r.2.1.map (fun p => p.id)) ++
      writtenDescIds net batch_size fuel (books.drop batch_size)
        (i + (books.take batch_size).length)

/-! ## Concrete inputs used by witnesses and counterexamples -/

def sampleBook : Book :=
  ⟨some "b1", some "T", some "A", some "D", some ["小說"], none, none⟩

def netOk : String → Nat → Option Nat := fun _ _ => some 0

def runStart : RunState Nat := ⟨initStats, [], [], 0⟩

def netFail : Nat → Option Nat := fun _ => none

def netThird : Nat → Option Nat := fun n => if n = 2 then some 7 else none

/-- Distinct identifier strings for the oversized-collection scenario of
`clear_collection`: the string of `n` letters a. -/
def cexId (n : Nat) : String := String.mk (List.replicate n 'a')

/-- A collection holding 10001 points with pairwise distinct identifiers —
one more than the single scroll request of `clear_collection` can return. -/
def cexColl : List String := (List.range 10001).map cexId

/-- MD5 test vector from RFC 1321: the digest of the empty message. -/
example : hexdigest (utf8Encode "") = "d41d8cd98f00b204e9800998ecf8427e".toList := by
  decide

/-- MD5 test vector from RFC 1321: the digest of the three-byte message abc. -/
example : hexdigest (utf8Encode "abc") = "900150983cd24fb0d6963f7d28e17f72".toList := by
  decide

/-! ## Basic shape lemmas about the identifier derivation -/

theorem length_md5Digest (msg : List Nat) : (md5Digest msg).length = 16 := by
  simp [md5Digest, wordBytesLE]

theorem length_flatMap_byteHex :
    ∀ l : List Nat, (l.flatMap byteHex).length = 2 * l.length
  | [] => rfl
  | b :: t => by
      rw [List.flatMap_cons, List.length_append, length_flatMap_byteHex t]
      simp only [byteHex, List.length_cons, List.length_nil]
      omega

theorem length_hexdigest (msg : List Nat) : (hexdigest msg).length = 32 := by
  rw [hexdigest, length_flatMap_byteHex, length_md5Digest]

theorem stringMk_length (l : List Char) : (String.mk l).length = l.length := rfl

/-- C1.  The identifier derivation is a pure deterministic function of the
key string: equal keys give equal identifiers (no randomness, no state),
and the result is always the 36-character hyphenated rendering of the
128-bit MD5 digest (32 hex characters plus 4 hyphens). -/
theorem c1_book_id_to_uuid_deterministic (k1 k2 : String) (h : k1 = k2) :
    book_id_to_uuid k1 = book_id_to_uuid k2 ∧ (book_id_to_uuid k1).length = 36 := by
  subst h
  refine ⟨rfl, ?_⟩
  have h32 : (hexdigest (utf8Encode k1)).length = 32 := length_hexdigest _
  simp only [book_id_to_uuid, stringMk_length, List.length_append, List.length_cons,
    List.length_take, List.length_drop, h32]
  omega

/-- Witness for C1 at the concrete key bk_0. -/
theorem c1_witness :
    book_id_to_uuid "bk_0" = book_id_to_uuid "bk_0"
    ∧ (book_id_to_uuid "bk_0").length = 36 :=
  c1_book_id_to_uuid_deterministic "bk_0" "bk_0" rfl

/-! ## Retry policy of the embedding client -/

/-- C4.  `get_embedding` makes at most `MAX_RETRIES` (= 3) HTTP attempts.
If every attempt fails it returns `none` to the caller after exactly
`MAX_RETRIES` attempts with `MAX_RETRIES - 1` one-second backoff sleeps in
between; if attempt `i` is the first to succeed it returns that attempt's
vector, having made exactly `i + 1` attempts (none after the success) and
slept once between consecutive attempts. -/
theorem c4_retry_bound (net : Nat → Option V) (stats : Stats) :
    (embedLoop net MAX_RETRIES 0 MAX_RETRIES).2.1 ≤ MAX_RETRIES
    ∧ ((∀ i, i < MAX_RETRIES → net i = none) →
        (get_embedding net stats).1 = none
        ∧ (embedLoop net MAX_RETRIES 0 MAX_RETRIES).2.1 = MAX_RETRIES
        ∧ (embedLoop net MAX_RETRIES 0 MAX_RETRIES).2.2 = MAX_RETRIES - 1)
    ∧ (∀ i v, i < MAX_RETRIES → net i = some v → (∀ j, j < i → net j = none) →
        (get_embedding net stats).1 = some v
        ∧ (embedLoop net MAX_RETRIES 0 MAX_RETRIES).2.1 = i + 1
        ∧ (embedLoop net MAX_RETRIES 0 MAX_RETRIES).2.2 = i) := by
  refine ⟨?_, ?_, ?_⟩
  · rcases h0 : net 0 with _ | v0 <;> rcases h1 : net 1 with _ | v1 <;>
      rcases h2 : net 2 with _ | v2 <;>
      simp [embedLoop, MAX_RETRIES, h0, h1, h2]
  · intro hall
    have h0 := hall 0 (by simp [MAX_RETRIES])
    have h1 := hall 1 (by simp [MAX_RETRIES])
    have h2 := hall 2 (by simp [MAX_RETRIES])
    simp [get_embedding, embedResult, embedLoop, MAX_RETRIES, h0, h1, h2]
  · intro i v hi hv hprev
    have hi3 : i < 3 := hi
    interval_cases i
    · simp [get_embedding, embedResult, embedLoop, MAX_RETRIES, hv]
    · have h0 := hprev 0 (by omega)
      simp [get_embedding, embedResult, embedLoop, MAX_RETRIES, h0, hv]
    · have h0 := hprev 0 (by omega)
      have h1 := hprev 1 (by omega)
      simp [get_embedding, embedResult, embedLoop, MAX_RETRIES, h0, h1, hv]

/-- Witness for C4: the always-failing oracle fails after exactly 3
attempts and 2 sleeps; an oracle whose first two attempts fail and whose
third succeeds returns that vector after exactly 3 attempts. -/
theorem c4_witness :
    ((get_embedding netFail initStats).1 = none
      ∧ (embedLoop netFail MAX_RETRIES 0 MAX_RETRIES).2.1 = MAX_RETRIES
      ∧ (embedLoop netFail MAX_RETRIES 0 MAX_RETRIES).2.2 = MAX_RETRIES - 1)
    ∧ ((get_embedding netThird initStats).1 = some 7
      ∧ (embedLoop netThird MAX_RETRIES 0 MAX_RETRIES).2.1 = 2 + 1
      ∧ (embedLoop netThird MAX_RETRIES 0 MAX_RETRIES).2.2 = 2) :=
  ⟨(c4_retry_bound netFail initStats).2.1 (fun i _ => rfl),
   (c4_retry_bound netThird initStats).2.2 2 7 (by decide) (by decide)
     (fun j hj => by
       have hj2 : j ≠ 2 := by omega
       simp [netThird, hj2])⟩

/-! ## The embedding-call counter -/

/-- C10.  Every invocation of `get_embedding` increments the shared
`embedding_calls` counter by exactly one — independently of the attempt
oracle, so independently of how many retries happen and of success or
failure — and leaves every other stats field unchanged. -/
theorem c10_embedding_counter (net : Nat → Option V) (stats : Stats) :
    (get_embedding net stats).2.embedding_calls = stats.embedding_calls + 1
    ∧ (get_embedding net stats).2.total_books = stats.total_books
    ∧ (get_embedding net stats).2.processed_books = stats.processed_books
    ∧ (get_embedding net stats).2.successful_uploads = stats.successful_uploads
    ∧ (get_embedding net stats).2.failed_uploads = stats.failed_uploads
    ∧ (get_embedding net stats).2.start_time = stats.start_time := by
  simp [get_embedding]

/-! ## Tag-text construction -/

/-- C8.  The tag text is the category prefix plus the comma-joined tags
when the tag list is non-empty, and otherwise the title prefix plus the
title; in particular an empty tag list never yields the bare category
prefix.  (The code's literal prefixes are 分類： and 書名：, which the
specification renders in English as Category: and Title:.) -/
theorem c8_tags_text (tags : List String) (title : String) :
    (tags ≠ [] → build_tags_text tags title = "分類：" ++ String.intercalate ", " tags)
    ∧ (tags = [] → build_tags_text tags title = "書名：" ++ title)
    ∧ (tags = [] → build_tags_text tags title ≠ "分類：") := by
  refine ⟨fun h => by simp [build_tags_text, h], fun h => by simp [build_tags_text, h], ?_⟩
  intro h heq
  subst h
  obtain ⟨tl⟩ := title
  simp only [build_tags_text, ne_eq, not_true_eq_false, if_neg, if_false] at heq
  have hdata := congrArg String.data heq
  simp [String.data] at hdata

/-- Witness for C8 at concrete records: one with a tag, one with empty
tags and a non-empty title. -/
theorem c8_witness :
    build_tags_text ["小說"] "t" = "分類：" ++ String.intercalate ", " ["小說"]
    ∧ build_tags_text [] "書" = "書名：" ++ "書"
    ∧ build_tags_text [] "書" ≠ "分類：" :=
  ⟨(c8_tags_text ["小說"] "t").1 (by decide), (c8_tags_text [] "書").2.1 rfl,
   (c8_tags_text [] "書").2.2 rfl⟩

/-! ## Structure lemmas for `processBook` and `processBatch` -/

theorem processBook_shape (net : String → Nat → Option V) (s : Stats)
    (b : Book) (i : Nat) :
    (processBook net s b i).1 = (none, none)
    ∨ ∃ tp dp, (processBook net s b i).1 = (some tp, some dp) ∧ tp.id = dp.id := by
  simp only [processBook, get_embedding]
  split
  · exact Or.inl rfl
  · split
    · exact Or.inl rfl
    · exact Or.inr ⟨_, _, rfl, rfl⟩

theorem processBook_fst_stats (net : String → Nat → Option V) (s1 s2 : Stats)
    (b : Book) (i : Nat) :
    (processBook net s1 b i).1 = (processBook net s2 b i).1 := by
  simp only [processBook, get_embedding]
  split
  · rfl
  · split <;> rfl

theorem processBook_stats (net : String → Nat → Option V) (s : Stats)
    (b : Book) (i : Nat) :
    (processBook net s b i).2.total_books = s.total_books
    ∧ (processBook net s b i).2.processed_books = s.processed_books
    ∧ (processBook net s b i).2.successful_uploads = s.successful_uploads
    ∧ (processBook net s b i).2.failed_uploads = s.failed_uploads
    ∧ (processBook net s b i).2.start_time = s.start_time := by
  simp only [processBook, get_embedding]
  split <;> try split
  all_goals simp

theorem processBook_fst_eq (net : String → Nat → Option V) (s : Stats)
    (b : Book) (i : Nat) :
    (processBook net s b i).1
      = ((bookPoints net b i).map Prod.fst, (bookPoints net b i).map Prod.snd) := by
  rw [processBook_fst_stats net s initStats]
  rcases processBook_shape net initStats b i with h | ⟨tp, dp, h, _⟩ <;>
    simp [bookPoints, h]

theorem bookPoints_ids (net : String → Nat → Option V) (b : Book) (i : Nat)
    (tp : TagsPoint V) (dp : DescPoint V)
    (h : bookPoints net b i = some (tp, dp)) : tp.id = dp.id := by
  rcases processBook_shape net initStats b i with hs | ⟨tp2, dp2, hs, hid⟩ <;>
    simp [bookPoints, hs] at h
  obtain ⟨h1, h2⟩ := h
  subst h1
  subst h2
  exact hid

theorem processBatch_spec (net : String → Nat → Option V) :
    ∀ (books : List Book) (i : Nat) (s : Stats),
      (processBatch net books i s).1
        = (List.enumFrom i books).filterMap
            (fun p => (bookPoints net p.2 p.1).map Prod.fst)
      ∧ (processBatch net books i s).2.1
        = (List.enumFrom i books).filterMap
            (fun p => (bookPoints net p.2 p.1).map Prod.snd)
      ∧ (processBatch net books i s).2.2.1 = (processBatch net books i s).1.length
      ∧ (processBatch net books i s).2.2.1 ≤ books.length
      ∧ (processBatch net books i s).2.2.2.failed_uploads
          = s.failed_uploads + (books.length - (processBatch net books i s).2.2.1)
      ∧ (processBatch net books i s).2.2.2.successful_uploads = s.successful_uploads
      ∧ (processBatch net books i s).2.2.2.processed_books = s.processed_books := by
  intro books
  induction books with
  | nil => intro i s; simp [processBatch]
  | cons b rest ih =>
    intro i s
    have hfst := processBook_fst_eq net s b i
    obtain ⟨hst1, hst2, hst3, hst4, hst5⟩ := processBook_stats net s b i
    rcases hpb : processBook net s b i with ⟨⟨t1, d1⟩, s1⟩
    rw [hpb] at hfst hst1 hst2 hst3 hst4 hst5
    dsimp only at hfst hst1 hst2 hst3 hst4 hst5
    rcases hbp : bookPoints net b i with _ | ⟨tp, dp⟩ <;> rw [hbp] at hfst <;>
      simp only [Option.map_none', Option.map_some', Prod.mk.injEq] at hfst <;>
      obtain ⟨ht1, hd1⟩ := hfst <;> subst ht1 <;> subst hd1
    · -- record dropped: both points are none
      obtain ⟨ih1, ih2, ih3, ih4, ih5, ih6, ih7⟩ :=
        ih (i + 1) { s1 with failed_uploads := s1.failed_uploads + 1 }
      dsimp only at ih5 ih6 ih7
      simp only [processBatch, hpb, List.enumFrom, hbp, Option.map_none',
        List.filterMap_cons_none, List.length_cons]
      exact ⟨ih1, ih2, ih3, Nat.le_succ_of_le ih4, by omega, by omega, by omega⟩
    · -- record succeeded: both points are present
      obtain ⟨ih1, ih2, ih3, ih4, ih5, ih6, ih7⟩ := ih (i + 1) s1
      simp only [processBatch, hpb, List.enumFrom, List.length_cons]
      refine ⟨?_, ?_, by rw [ih3], by omega, by omega, by omega, by omega⟩
      · rw [List.filterMap_cons, ih1]
        simp [hbp]
      · rw [List.filterMap_cons, ih2]
        simp [hbp]

theorem bookPoints_none_iff (net : String → Nat → Option V) (b : Book) (i : Nat) :
    bookPoints net b i = none
      ↔ (embedResult (net (build_tags_text (b.tags.getD []) (b.title.getD ""))) = none
          ∨ embedResult (net (b.description.getD "")) = none) := by
  simp only [bookPoints, processBook, get_embedding]
  rcases h1 : embedResult (net (build_tags_text (b.tags.getD []) (b.title.getD ""))) with _ | v1 <;>
    rcases h2 : embedResult (net (b.description.getD "")) with _ | v2 <;>
    simp [h1, h2]

/-- C3.  The point lists a batch produces contain exactly the records both
of whose embedding calls succeeded, in input order — a record either of
whose two embedding calls failed contributes no point to either list —
and the batch's stats record `failed_uploads` increments once per dropped
record, so the success count equals the input size minus the number of
failed records. -/
theorem c3_partial_failure_isolation (net : String → Nat → Option V)
    (books : List Book) (start_idx : Nat) (stats : Stats) :
    (processBatch net books start_idx stats).1
      = (List.enumFrom start_idx books).filterMap
          (fun p => (bookPoints net p.2 p.1).map Prod.fst)
    ∧ (processBatch net books start_idx stats).2.1
      = (List.enumFrom start_idx books).filterMap
          (fun p => (bookPoints net p.2 p.1).map Prod.snd)
    ∧ (∀ (b : Book) (j : Nat), bookPoints net b j = none
        ↔ (embedResult (net (build_tags_text (b.tags.getD []) (b.title.getD ""))) = none
            ∨ embedResult (net (b.description.getD "")) = none))
    ∧ (processBatch net books start_idx stats).2.2.2.failed_uploads
        = stats.failed_uploads
          + (books.length - (processBatch net books start_idx stats).2.2.1)
    ∧ (processBatch net books start_idx stats).2.2.1
        = books.length
          - ((processBatch net books start_idx stats).2.2.2.failed_uploads
              - stats.failed_uploads) := by
  obtain ⟨h1, h2, h3, h4, h5, -, -⟩ := processBatch_spec net books start_idx stats
  exact ⟨h1, h2, fun b j => bookPoints_none_iff net b j, h5, by omega⟩

/-! ## Identifier sets under upserts -/

theorem map_key_upsertPoint (key : α → String) (c : List α) (p : α) :
    (upsertPoint key c p).map key = insertId (c.map key) (key p) := by
  simp only [upsertPoint, insertId]
  split
  · rw [List.map_map]
    apply List.map_congr_left
    intro q hq
    by_cases hk : key q = key p
    · simp [Function.comp, hk]
    · simp [Function.comp, hk]
  · rw [List.map_append]
    rfl

theorem map_key_upsertList (key : α → String) :
    ∀ (ps c : List α),
      (upsertList key c ps).map key = idsUnion (c.map key) (ps.map key)
  | [], _ => rfl
  | p :: ps, c => by
      simp only [upsertList, List.foldl_cons, List.map_cons, idsUnion]
      have ih := map_key_upsertList key ps (upsertPoint key c p)
      simp only [upsertList, idsUnion] at ih
      rw [ih, map_key_upsertPoint]

theorem mem_insertId (a : List String) (x y : String) :
    y ∈ insertId a x ↔ y ∈ a ∨ y = x := by
  simp only [insertId]
  split
  · rename_i h
    constructor
    · exact Or.inl
    · rintro (hy | hy)
      · exact hy
      · exact hy ▸ h
  · simp [List.mem_append]

theorem mem_idsUnion : ∀ (b a : List String) (y : String),
    y ∈ idsUnion a b ↔ y ∈ a ∨ y ∈ b
  | [], a, y => by simp [idsUnion]
  | x :: b, a, y => by
      simp only [idsUnion, List.foldl_cons]
      have ih := mem_idsUnion b (insertId a x) y
      simp only [idsUnion] at ih
      rw [ih, mem_insertId]
      simp only [List.mem_cons]
      tauto

theorem insertId_of_mem {a : List String} {x : String} (h : x ∈ a) :
    insertId a x = a := by
  simp [insertId, h]

theorem idsUnion_eq_of_subset : ∀ (b a : List String), (∀ y ∈ b, y ∈ a) →
    idsUnion a b = a
  | [], _, _ => rfl
  | x :: b, a, h => by
      simp only [idsUnion, List.foldl_cons]
      rw [insertId_of_mem (h x (List.mem_cons_self x b))]
      have ih := idsUnion_eq_of_subset b a (fun y hy => h y (List.mem_cons_of_mem x hy))
      simpa [idsUnion] using ih

theorem idsUnion_append (a x y : List String) :
    idsUnion a (x ++ y) = idsUnion (idsUnion a x) y := by
  simp [idsUnion, List.foldl_append]

theorem idsUnion_idem (a w : List String) :
    idsUnion (idsUnion a w) w = idsUnion a w :=
  idsUnion_eq_of_subset w (idsUnion a w) (fun y hy => (mem_idsUnion w a y).mpr (Or.inr hy))

/-- C2.  Every successfully processed record yields a tag point and a
description point carrying the same identifier; the two point lists of a
batch therefore have pointwise equal identifier lists, and after a batch
write in which both upserts succeed, two collections whose identifier
sets agreed beforehand still agree — no orphan appears in either. -/
theorem c2_shared_identifier (net : String → Nat → Option V) (books : List Book)
    (i : Nat) (upOk : Nat → Bool) (s : RunState V)
    (hids : s.tagsColl.map (fun p => p.id) = s.descColl.map (fun p => p.id))
    (hp : (processBatch net books i s.stats).1 ≠ [])
    (h1 : upOk s.upsertCalls = true)
    (h2 : upOk (s.upsertCalls + 1) = true) :
    (∀ (st : Stats) (b : Book) (j : Nat) (tp : TagsPoint V) (dp : DescPoint V) (s2 : Stats),
        processBook net st b j = ((some tp, some dp), s2) → tp.id = dp.id)
    ∧ (processBatch net books i s.stats).1.map (fun p => p.id)
        = (processBatch net books i s.stats).2.1.map (fun p => p.id)
    ∧ (stepBatch net upOk books i s).tagsColl.map (fun p => p.id)
        = (stepBatch net upOk books i s).descColl.map (fun p => p.id) := by
  have hone : ∀ (st : Stats) (b : Book) (j : Nat) (tp : TagsPoint V)
      (dp : DescPoint V) (s2 : Stats),
      processBook net st b j = ((some tp, some dp), s2) → tp.id = dp.id := by
    intro st b j tp dp s2 h
    have hs := processBook_shape net st b j
    rw [h] at hs
    rcases hs with hs | ⟨tp2, dp2, hs, hid⟩
    · exact absurd hs (by simp)
    · obtain ⟨hl, hr⟩ := Prod.mk.injEq .. ▸ hs
      rw [Option.some.injEq] at hl hr
      rw [← hl, ← hr] at hid
      exact hid
  have hmap : (processBatch net books i s.stats).1.map (fun p => p.id)
      = (processBatch net books i s.stats).2.1.map (fun p => p.id) := by
    obtain ⟨hb1, hb2, -, -, -, -, -⟩ := processBatch_spec net books i s.stats
    rw [hb1, hb2, List.map_filterMap, List.map_filterMap]
    apply List.filterMap_congr
    intro p hmem
    rcases hq : bookPoints net p.2 p.1 with _ | ⟨tp, dp⟩
    · rfl
    · simp [bookPoints_ids net p.2 p.1 tp dp hq]
  have hdps : (processBatch net books i s.stats).2.1 ≠ [] := by
    intro hnil
    apply hp
    rw [hnil] at hmap
    simpa using hmap
  refine ⟨hone, hmap, ?_⟩
  have hpe : (processBatch net books i s.stats).1.isEmpty = false := by
    simpa [List.isEmpty_iff] using hp
  have hde : (processBatch net books i s.stats).2.1.isEmpty = false := by
    simpa [List.isEmpty_iff] using hdps
  simp only [stepBatch, hpe, hde, Bool.or_self, Bool.false_eq_true, if_false,
    upsert_to_qdrant, h1, h2, if_true, Bool.true_eq_false, reduceIte]
  rw [map_key_upsertList, map_key_upsertList, hids, hmap]

/-- Witness for C2 at a concrete one-record batch written into two empty
collections with always-succeeding upserts. -/
theorem c2_witness :
    (processBatch netOk [sampleBook] 0 runStart.stats).1.map (fun p => p.id)
      = (processBatch netOk [sampleBook] 0 runStart.stats).2.1.map (fun p => p.id)
    ∧ (stepBatch netOk (fun _ => true) [sampleBook] 0 runStart).tagsColl.map (fun p => p.id)
      = (stepBatch netOk (fun _ => true) [sampleBook] 0 runStart).descColl.map (fun p => p.id) :=
  (c2_shared_identifier netOk [sampleBook] 0 (fun _ => true) runStart rfl
    (by decide) rfl rfl).2

/-! ## `clear_collection`: single capped scroll -/

theorem cexId_injective (m n : Nat) (h : cexId m = cexId n) : m = n := by
  have hl := congrArg String.length h
  simpa [cexId, stringMk_length] using hl

/-- C5 counterexample: on a collection of 10001 distinct points, with both
store requests succeeding, `clear_collection` reports success although the
collection is not empty afterwards — the single scroll request with
`limit: 10000` did not retrieve every identifier, so the claim that all
points are enumerated and deleted regardless of collection size is false. -/
theorem c5_counterexample :
    (clear_collection (fun s => s) true true cexColl).1 = true
    ∧ (clear_collection (fun s => s) true true cexColl).2.1 ≠ [] := by
  have htake : (cexColl.take 10000).map (fun s => s) = (List.range 10000).map cexId := by
    rw [List.map_id']
    simp only [cexColl]
    rw [← List.map_take, List.take_range]
    norm_num
  have hnotmem : cexId 10000 ∉ (List.range 10000).map cexId := by
    intro hmem
    rcases List.mem_map.mp hmem with ⟨j, hj, hje⟩
    have := cexId_injective j 10000 hje
    rw [List.mem_range] at hj
    omega
  have hmem : cexId 10000 ∈ cexColl :=
    List.mem_map.mpr ⟨10000, List.mem_range.mpr (by omega), rfl⟩
  have hne : ((List.range 10000).map cexId) ≠ [] := by
    simp [List.map_eq_nil_iff, List.range_eq_nil]
  have hres : clear_collection (fun s => s) true true cexColl
      = (true, cexColl.filter
          (fun p => decide (p ∉ (cexColl.take 10000).map (fun s => s))), 1) := by
    simp only [clear_collection, htake, if_neg hne]
    simp
  rw [hres]
  refine ⟨rfl, ?_⟩
  apply List.ne_nil_of_mem (a := cexId 10000)
  rw [List.mem_filter]
  refine ⟨hmem, ?_⟩
  rw [decide_eq_true_iff, htake]
  exact hnotmem

/-- C5 (amended).  `clear_collection` enumerates point identifiers with a
single scroll request capped at 10000 — so it retrieves every identifier
only when the collection holds at most 10000 points — deletes exactly the
enumerated ones, and returns success only if the scroll and (when points
exist) the delete both succeed; a collection with zero points yields
success without issuing a delete. -/
theorem c5_clear_collection_behavior (key : α → String) (scrollOk deleteOk : Bool)
    (c : List α) :
    (scrollOk = false → clear_collection key scrollOk deleteOk c = (false, c, 0))
    ∧ (scrollOk = true → c = [] → clear_collection key scrollOk deleteOk c = (true, c, 0))
    ∧ (scrollOk = true → c ≠ [] → deleteOk = true →
        clear_collection key scrollOk deleteOk c
          = (true, c.filter (fun p => decide (key p ∉ (c.take 10000).map key)), 1))
    ∧ (scrollOk = true → c ≠ [] → deleteOk = false →
        clear_collection key scrollOk deleteOk c = (false, c, 1))
    ∧ ((clear_collection key scrollOk deleteOk c).1 = true
        ↔ scrollOk = true ∧ (c = [] ∨ deleteOk = true)) := by
  have hpd : ((c.take 10000).map key = []) ↔ c = [] := by
    rw [List.map_eq_nil_iff, List.take_eq_nil_iff]
    simp
  refine ⟨?_, ?_, ?_, ?_, ?_⟩
  · intro h
    subst h
    simp [clear_collection]
  · intro h hc
    subst h
    subst hc
    simp [clear_collection]
  · intro h hc hd
    subst h
    subst hd
    rw [clear_collection]
    simp only [reduceIte]
    rw [if_neg (fun hh => hc (hpd.mp hh))]
    simp
  · intro h hc hd
    subst h
    subst hd
    rw [clear_collection]
    simp only [reduceIte]
    rw [if_neg (fun hh => hc (hpd.mp hh))]
    simp
  · cases scrollOk
    · simp [clear_collection]
    · by_cases hc2 : c = []
      · subst hc2
        simp [clear_collection]
      · cases deleteOk
        · rw [clear_collection]
          simp only [reduceIte]
          rw [if_neg (fun hh => hc2 (hpd.mp hh))]
          simp [hc2]
        · rw [clear_collection]
          simp only [reduceIte]
          rw [if_neg (fun hh => hc2 (hpd.mp hh))]
          simp

/-- Witness for C5's amended statement: a one-point collection is cleared
in full with one delete call, and an empty collection reports success
without any delete call. -/
theorem c5_witness :
    clear_collection (fun s => s) true true ["x"]
      = (true, (["x"] : List String).filter
          (fun p => decide (p ∉ ((["x"] : List String).take 10000).map (fun s => s))), 1)
    ∧ clear_collection (fun s => s) true true ([] : List String) = (true, [], 0) :=
  ⟨(c5_clear_collection_behavior (fun s => s) true true ["x"]).2.2.1 rfl (by decide) rfl,
   (c5_clear_collection_behavior (fun s => s) true true []).2.1 rfl rfl⟩

/-! ## Unfolding and bookkeeping lemmas for the batch loop -/

theorem loopBatches_nil (net : String → Nat → Option V) (upOk : Nat → Bool)
    (bs : Nat) (fuel i : Nat) (s : RunState V) :
    loopBatches net upOk bs fuel [] i s = s := by
  cases fuel <;> rfl

theorem loopBatches_cons (net : String → Nat → Option V) (upOk : Nat → Bool)
    (bs fuel : Nat) (b : Book) (rest : List Book) (i : Nat) (s : RunState V) :
    loopBatches net upOk bs (fuel + 1) (b :: rest) i s
      = loopBatches net upOk bs fuel ((b :: rest).drop bs)
          (i + ((b :: rest).take bs).length)
          (stepBatch net upOk ((b :: rest).take bs) i s) := rfl

theorem loopBatches_congr (net : String → Nat → Option V) (upOk : Nat → Bool)
    (bs : Nat) (hbs : 0 < bs) :
    ∀ (f1 f2 : Nat) (books : List Book) (i : Nat) (s : RunState V),
      books.length ≤ f1 → books.length ≤ f2 →
      loopBatches net upOk bs f1 books i s = loopBatches net upOk bs f2 books i s := by
  intro f1
  induction f1 with
  | zero =>
    intro f2 books i s h1 _
    have hb : books = [] := List.eq_nil_of_length_eq_zero (Nat.le_zero.mp h1)
    subst hb
    rw [loopBatches_nil, loopBatches_nil]
  | succ f ih =>
    intro f2 books i s h1 h2
    rcases books with _ | ⟨b, rest⟩
    · rw [loopBatches_nil, loopBatches_nil]
    · rcases f2 with _ | f2
      · simp at h2
      · rw [loopBatches_cons, loopBatches_cons]
        apply ih
        · rw [List.length_drop]
          simp only [List.length_cons] at h1 ⊢
          omega
        · rw [List.length_drop]
          simp only [List.length_cons] at h2 ⊢
          omega

theorem runBatches_step (net : String → Nat → Option V) (upOk : Nat → Bool)
    (bs : Nat) (books : List Book) (s : RunState V)
    (hbs : 0 < bs) (hne : books ≠ []) :
    runBatches net upOk bs books s
      = loopBatches net upOk bs (books.drop bs).length (books.drop bs)
          ((books.take bs).length) (stepBatch net upOk (books.take bs) 0 s) := by
  rcases books with _ | ⟨b, rest⟩
  · exact absurd rfl hne
  · show loopBatches net upOk bs (rest.length + 1) (b :: rest) 0 s = _
    rw [loopBatches_cons]
    simp only [Nat.zero_add]
    apply loopBatches_congr net upOk bs hbs
    · rw [List.length_drop]
      simp only [List.length_cons]
      omega
    · exact le_rfl

theorem upsert_to_qdrant_mono (key : α → String) (upOk : Nat → Bool)
    (calls : Nat) (c ps : List α) (x : String) (hx : x ∈ c.map key) :
    x ∈ (upsert_to_qdrant key upOk calls c ps).2.1.map key := by
  simp only [upsert_to_qdrant]
  split
  · exact hx
  · split
    · rw [map_key_upsertList]
      exact (mem_idsUnion _ _ x).mpr (Or.inl hx)
    · exact hx

theorem stepBatch_tags_mono (net : String → Nat → Option V) (upOk : Nat → Bool)
    (batch : List Book) (i : Nat) (s : RunState V) (x : String)
    (hx : x ∈ s.tagsColl.map (fun p => p.id)) :
    x ∈ (stepBatch net upOk batch i s).tagsColl.map (fun p => p.id) := by
  simp only [stepBatch]
  split
  · exact hx
  · split
    · exact hx
    · split
      · exact upsert_to_qdrant_mono _ upOk _ _ _ x hx
      · exact upsert_to_qdrant_mono _ upOk _ _ _ x hx

theorem loopBatches_tags_mono (net : String → Nat → Option V) (upOk : Nat → Bool)
    (bs : Nat) :
    ∀ (fuel : Nat) (books : List Book) (i : Nat) (s : RunState V) (x : String),
      x ∈ s.tagsColl.map (fun p => p.id) →
      x ∈ (loopBatches net upOk bs fuel books i s).tagsColl.map (fun p => p.id)
  | 0, books, i, s, x, hx => by
      have h0 : loopBatches net upOk bs 0 books i s = s := by cases books <;> rfl
      rw [h0]
      exact hx
  | _ + 1, [], _, _, _, hx => hx
  | fuel + 1, b :: rest, i, s, x, hx => by
      rw [loopBatches_cons]
      exact loopBatches_tags_mono net upOk bs fuel _ _ _ x
        (stepBatch_tags_mono net upOk _ i s x hx)

theorem processBatch_out_stats (net : String → Nat → Option V)
    (books : List Book) (i : Nat) (s1 s2 : Stats) :
    (processBatch net books i s1).1 = (processBatch net books i s2).1
    ∧ (processBatch net books i s1).2.1 = (processBatch net books i s2).2.1
    ∧ (processBatch net books i s1).2.2.1 = (processBatch net books i s2).2.2.1 := by
  obtain ⟨a1, a2, a3, -, -, -, -⟩ := processBatch_spec net books i s1
  obtain ⟨b1, b2, b3, -, -, -, -⟩ := processBatch_spec net books i s2
  refine ⟨a1.trans b1.symm, a2.trans b2.symm, ?_⟩
  rw [a3, b3, a1, b1]

/-! ## Upsert failures: what the loop records and keeps -/

/-- C6 counterexample: one record, every embedding attempt succeeds, and
the store rejects the batch's first upsert.  The run issues exactly one
upsert call and ends with `failed_uploads = 0` — the final summary shows a
zero failed count even though an upsert failed, contradicting the claim
that the failure is counted so that the summary shows a nonzero failed
count. -/
theorem c6_counterexample :
    (runBatches netOk (fun _ => false) 10 [sampleBook] runStart).upsertCalls = 1
    ∧ (runBatches netOk (fun _ => false) 10 [sampleBook] runStart).stats.failed_uploads = 0
    ∧ (runBatches netOk (fun _ => false) 10 [sampleBook] runStart).stats.successful_uploads
        = 0 := by
  refine ⟨by decide, by decide, by decide⟩

/-- C6 (amended).  When the store rejects a batch's tag upsert, the
batch's success count is recorded as 0 (`successful_uploads` unchanged),
nothing is written, and the run continues with the next batch — but the
upsert failure itself is not counted: `failed_uploads` grows only by the
number of records dropped for embedding failures, so a run whose
embeddings all succeed ends with a zero failed count in the final
summary. -/
theorem c6_upsert_failure_not_counted (net : String → Nat → Option V)
    (upOk : Nat → Bool) (bs : Nat) (books : List Book) (s : RunState V)
    (hbs : 0 < bs) (hne : books ≠ [])
    (hp : (processBatch net (books.take bs) 0 s.stats).1 ≠ [])
    (hd : (processBatch net (books.take bs) 0 s.stats).2.1 ≠ [])
    (hfail : upOk s.upsertCalls = false) :
    (stepBatch net upOk (books.take bs) 0 s).stats.successful_uploads
        = s.stats.successful_uploads
    ∧ (stepBatch net upOk (books.take bs) 0 s).stats.failed_uploads
        = s.stats.failed_uploads
          + ((books.take bs).length - (processBatch net (books.take bs) 0 s.stats).2.2.1)
    ∧ (stepBatch net upOk (books.take bs) 0 s).tagsColl = s.tagsColl
    ∧ (stepBatch net upOk (books.take bs) 0 s).descColl = s.descColl
    ∧ (stepBatch net upOk (books.take bs) 0 s).upsertCalls = s.upsertCalls + 1
    ∧ runBatches net upOk bs books s
        = loopBatches net upOk bs (books.drop bs).length (books.drop bs)
            ((books.take bs).length) (stepBatch net upOk (books.take bs) 0 s) := by
  have hpe : (processBatch net (books.take bs) 0 s.stats).1.isEmpty = false := by
    simpa [List.isEmpty_iff] using hp
  have hde : (processBatch net (books.take bs) 0 s.stats).2.1.isEmpty = false := by
    simpa [List.isEmpty_iff] using hd
  obtain ⟨-, -, -, -, h5, h6, -⟩ := processBatch_spec net (books.take bs) 0 s.stats
  refine ⟨?_, ?_, ?_, ?_, ?_, runBatches_step net upOk bs books s hbs hne⟩ <;>
    simp [stepBatch, hpe, hde, upsert_to_qdrant, hfail, h5, h6]

/-- Witness for C6's amended statement at the concrete inputs of the
counterexample. -/
theorem c6_witness :
    (stepBatch netOk (fun _ => false) ([sampleBook].take 10) 0 runStart).stats.successful_uploads
        = runStart.stats.successful_uploads
    ∧ (stepBatch netOk (fun _ => false) ([sampleBook].take 10) 0 runStart).stats.failed_uploads
        = runStart.stats.failed_uploads
          + (([sampleBook].take 10).length
              - (processBatch netOk ([sampleBook].take 10) 0 runStart.stats).2.2.1)
    ∧ (stepBatch netOk (fun _ => false) ([sampleBook].take 10) 0 runStart).tagsColl
        = runStart.tagsColl
    ∧ (stepBatch netOk (fun _ => false) ([sampleBook].take 10) 0 runStart).descColl
        = runStart.descColl
    ∧ (stepBatch netOk (fun _ => false) ([sampleBook].take 10) 0 runStart).upsertCalls
        = runStart.upsertCalls + 1
    ∧ runBatches netOk (fun _ => false) 10 [sampleBook] runStart
        = loopBatches netOk (fun _ => false) 10 ([sampleBook].drop 10).length
            ([sampleBook].drop 10) (([sampleBook].take 10).length)
            (stepBatch netOk (fun _ => false) ([sampleBook].take 10) 0 runStart) :=
  c6_upsert_failure_not_counted netOk (fun _ => false) 10 [sampleBook] runStart
    (by decide) (by decide) (by decide) (by decide) rfl

/-- C9.  When a batch's tag upsert succeeds and the following description
upsert fails, the batch is reported failed in aggregate (its success count
is not added) but the tag points already written are kept: the tag
collection holds the batch's identifiers, the description collection is
untouched by this batch, no compensating delete is ever issued (the loop
only grows collections), and the run continues with the next batch. -/
theorem c9_no_rollback (net : String → Nat → Option V) (upOk : Nat → Bool)
    (bs : Nat) (books : List Book) (s : RunState V)
    (hbs : 0 < bs) (hne : books ≠ [])
    (hp : (processBatch net (books.take bs) 0 s.stats).1 ≠ [])
    (hd : (processBatch net (books.take bs) 0 s.stats).2.1 ≠ [])
    (hok : upOk s.upsertCalls = true)
    (hfail : upOk (s.upsertCalls + 1) = false) :
    (stepBatch net upOk (books.take bs) 0 s).tagsColl
        = upsertList (fun p => p.id) s.tagsColl
            (processBatch net (books.take bs) 0 s.stats).1
    ∧ (stepBatch net upOk (books.take bs) 0 s).descColl = s.descColl
    ∧ (stepBatch net upOk (books.take bs) 0 s).stats.successful_uploads
        = s.stats.successful_uploads
    ∧ runBatches net upOk bs books s
        = loopBatches net upOk bs (books.drop bs).length (books.drop bs)
            ((books.take bs).length) (stepBatch net upOk (books.take bs) 0 s)
    ∧ ∀ p ∈ (processBatch net (books.take bs) 0 s.stats).1,
        p.id ∈ (runBatches net upOk bs books s).tagsColl.map (fun q => q.id) := by
  have hpe : (processBatch net (books.take bs) 0 s.stats).1.isEmpty = false := by
    simpa [List.isEmpty_iff] using hp
  have hde : (processBatch net (books.take bs) 0 s.stats).2.1.isEmpty = false := by
    simpa [List.isEmpty_iff] using hd
  obtain ⟨-, -, -, -, -, h6, -⟩ := processBatch_spec net (books.take bs) 0 s.stats
  have hstep : (stepBatch net upOk (books.take bs) 0 s).tagsColl
      = upsertList (fun p => p.id) s.tagsColl
          (processBatch net (books.take bs) 0 s.stats).1 := by
    simp [stepBatch, hpe, hde, upsert_to_qdrant, hok, hfail]
  refine ⟨hstep, ?_, ?_, runBatches_step net upOk bs books s hbs hne, ?_⟩
  · simp [stepBatch, hpe, hde, upsert_to_qdrant, hok, hfail]
  · simp [stepBatch, hpe, hde, upsert_to_qdrant, hok, hfail, h6]
  · intro p hpmem
    rw [runBatches_step net upOk bs books s hbs hne]
    apply loopBatches_tags_mono
    rw [hstep, map_key_upsertList]
    exact (mem_idsUnion _ _ p.id).mpr (Or.inr (List.mem_map.mpr ⟨p, hpmem, rfl⟩))

/-- Witness for C9: one record, the tag upsert (call 0) succeeds and the
description upsert (call 1) fails. -/
theorem c9_witness :
    (stepBatch netOk (fun n => n == 0) ([sampleBook].take 10) 0 runStart).tagsColl
        = upsertList (fun p => p.id) runStart.tagsColl
            (processBatch netOk ([sampleBook].take 10) 0 runStart.stats).1
    ∧ (stepBatch netOk (fun n => n == 0) ([sampleBook].take 10) 0 runStart).descColl
        = runStart.descColl
    ∧ (stepBatch netOk (fun n => n == 0) ([sampleBook].take 10) 0 runStart).stats.successful_uploads
        = runStart.stats.successful_uploads := by
  have h := c9_no_rollback netOk (fun n => n == 0) 10 [sampleBook] runStart
    (by decide) (by decide) (by decide) (by decide) rfl rfl
  exact ⟨h.1, h.2.1, h.2.2.1⟩

/-! ## Idempotence of re-import -/

theorem loopBatches_ids_const_true (net : String → Nat → Option V) (bs : Nat) :
    ∀ (fuel : Nat) (books : List Book) (i : Nat) (s : RunState V),
      (loopBatches net (fun _ => true) bs fuel books i s).tagsColl.map (fun p => p.id)
          = idsUnion (s.tagsColl.map (fun p => p.id)) (writtenTagIds net bs fuel books i)
      ∧ (loopBatches net (fun _ => true) bs fuel books i s).descColl.map (fun p => p.id)
          = idsUnion (s.descColl.map (fun p => p.id)) (writtenDescIds net bs fuel books i)
  | 0, books, i, s => by
      have h0 : loopBatches net (fun _ => true) bs 0 books i s = s := by
        cases books <;> rfl
      have w1 : writtenTagIds net bs 0 books i = [] := by cases books <;> rfl
      have w2 : writtenDescIds net bs 0 books i = [] := by cases books <;> rfl
      rw [h0, w1, w2]
      exact ⟨rfl, rfl⟩
  | fuel + 1, [], i, s => by
      rw [loopBatches_nil]
      exact ⟨rfl, rfl⟩
  | fuel + 1, b :: rest, i, s => by
      rw [loopBatches_cons]
      obtain ⟨ho1, ho2, -⟩ :=
        processBatch_out_stats net ((b :: rest).take bs) i initStats s.stats
      have hwt : writtenTagIds net bs (fuel + 1) (b :: rest) i
          = (if (processBatch net ((b :: rest).take bs) i initStats).1.isEmpty
                || (processBatch net ((b :: rest).take bs) i initStats).2.1.isEmpty
             then [] else
               (processBatch net ((b :: rest).take bs) i initStats).1.map (fun p => p.id))
            ++ writtenTagIds net bs fuel ((b :: rest).drop bs)
                (i + ((b :: rest).take bs).length) := rfl
      have hwd : writtenDescIds net bs (fuel + 1) (b :: rest) i
          = (if (processBatch net ((b :: rest).take bs) i initStats).1.isEmpty
                || (processBatch net ((b :: rest).take bs) i initStats).2.1.isEmpty
             then [] else
               (processBatch net ((b :: rest).take bs) i initStats).2.1.map (fun p => p.id))
            ++ writtenDescIds net bs fuel ((b :: rest).drop bs)
                (i + ((b :: rest).take bs).length) := rfl
      obtain ⟨ih1, ih2⟩ := loopBatches_ids_const_true net bs fuel ((b :: rest).drop bs)
        (i + ((b :: rest).take bs).length)
        (stepBatch net (fun _ => true) ((b :: rest).take bs) i s)
      rcases hskip : ((processBatch net ((b :: rest).take bs) i s.stats).1.isEmpty
          || (processBatch net ((b :: rest).take bs) i s.stats).2.1.isEmpty) with _ | _
      · -- batch produced points: both upserts run and succeed
        have hpe : (processBatch net ((b :: rest).take bs) i s.stats).1.isEmpty = false :=
          (Bool.or_eq_false_iff.mp hskip).1
        have hde : (processBatch net ((b :: rest).take bs) i s.stats).2.1.isEmpty = false :=
          (Bool.or_eq_false_iff.mp hskip).2
        have htag : (stepBatch net (fun _ => true) ((b :: rest).take bs) i s).tagsColl
            = upsertList (fun p => p.id) s.tagsColl
                (processBatch net ((b :: rest).take bs) i s.stats).1 := by
          simp [stepBatch, hpe, hde, upsert_to_qdrant]
        have hdesc : (stepBatch net (fun _ => true) ((b :: rest).take bs) i s).descColl
            = upsertList (fun p => p.id) s.descColl
                (processBatch net ((b :: rest).take bs) i s.stats).2.1 := by
          simp [stepBatch, hpe, hde, upsert_to_qdrant]
        rw [hwt, hwd, ho1, ho2, hskip]
        simp only [Bool.false_eq_true, if_false]
        constructor
        · rw [ih1, htag, map_key_upsertList, idsUnion_append]
        · rw [ih2, hdesc, map_key_upsertList, idsUnion_append]
      · -- batch produced no points: upload skipped, collections unchanged
        have hstep : (stepBatch net (fun _ => true) ((b :: rest).take bs) i s).tagsColl
              = s.tagsColl
            ∧ (stepBatch net (fun _ => true) ((b :: rest).take bs) i s).descColl
              = s.descColl := by
          constructor <;> simp [stepBatch, hskip]
        rw [hwt, hwd, ho1, ho2, hskip]
        simp only [if_true, List.nil_append]
        constructor
        · rw [ih1, hstep.1]
        · rw [ih2, hstep.2]

/-- C7.  With a deterministic embedding oracle and a store that accepts
every upsert, running the batch stage twice over the same input leaves the
same number of points in both collections as running it once: the second
run's upserts overwrite points by identifier instead of adding
duplicates. -/
theorem c7_idempotent_reimport (net : String → Nat → Option V) (bs : Nat)
    (books : List Book) (s : RunState V) (_hbs : 0 < bs) :
    (runBatches net (fun _ => true) bs books
        (runBatches net (fun _ => true) bs books s)).tagsColl.length
      = (runBatches net (fun _ => true) bs books s).tagsColl.length
    ∧ (runBatches net (fun _ => true) bs books
        (runBatches net (fun _ => true) bs books s)).descColl.length
      = (runBatches net (fun _ => true) bs books s).descColl.length := by
  simp only [runBatches]
  obtain ⟨h1t, h1d⟩ := loopBatches_ids_const_true net bs books.length books 0 s
  obtain ⟨h2t, h2d⟩ := loopBatches_ids_const_true net bs books.length books 0
    (loopBatches net (fun _ => true) bs books.length books 0 s)
  constructor
  · have hids : (loopBatches net (fun _ => true) bs books.length books 0
          (loopBatches net (fun _ => true) bs books.length books 0 s)).tagsColl.map
            (fun p => p.id)
        = (loopBatches net (fun _ => true) bs books.length books 0 s).tagsColl.map
            (fun p => p.id) := by
      rw [h2t, h1t]
      exact idsUnion_idem _ _
    have hlen := congrArg List.length hids
    simpa using hlen
  · have hids : (loopBatches net (fun _ => true) bs books.length books 0
          (loopBatches net (fun _ => true) bs books.length books 0 s)).descColl.map
            (fun p => p.id)
        = (loopBatches net (fun _ => true) bs books.length books 0 s).descColl.map
            (fun p => p.id) := by
      rw [h2d, h1d]
      exact idsUnion_idem _ _
    have hlen := congrArg List.length hids
    simpa using hlen

/-- Witness for C7 at a concrete one-record input: running the stage twice
leaves the same point counts as running it once. -/
theorem c7_witness :
    (runBatches netOk (fun _ => true) 10 [sampleBook]
        (runBatches netOk (fun _ => true) 10 [sampleBook] runStart)).tagsColl.length
      = (runBatches netOk (fun _ => true) 10 [sampleBook] runStart).tagsColl.length
    ∧ (runBatches netOk (fun _ => true) 10 [sampleBook]
        (runBatches netOk (fun _ => true) 10 [sampleBook] runStart)).descColl.length
      = (runBatches netOk (fun _ => true) 10 [sampleBook] runStart).descColl.length :=
  c7_idempotent_reimport netOk 10 [sampleBook] runStart (by decide)

end BookImport
